import Mathlib

set_option maxRecDepth 8192

/-!
Verification of the CorChess core infrastructure: transposition table
(resize / clear / probe / hashfull / save / load), NUMA node registry
(constructor fallback and thread-to-node assignment), and the time
manager (optimum / maximum search durations).

The development is a shallow embedding of the C++ sources:
`src/src/timeman.cpp`, `src/src/numasf.cpp`, the transposition-table
translation unit (tt.cpp) and the numasf.h header.  Machine integers are
modelled as `Nat`/`Int` (with explicit `% 2 ^ 64` where `size_t`
overflow matters), C++ `double` arithmetic is modelled over `ℝ`
(with `exp` as `Real.exp` and the final double-to-int cast as
truncation toward zero), raw memory addresses are abstracted as
allocation identifiers, and the table's backing array is modelled as a
total function from cluster indices to cluster values (indices at or
above `clusterCount` are never touched by the modelled operations).
-/

/-! ### Transposition table: data model -/

/-- Entries per cluster.  Modelled from the spec: `ClusterSize` is declared in
the missing header tt.h; the spec fixes a cluster as a small fixed group of
entries, e.g. 3, which matches the loops `for (int i = 0; i < ClusterSize; ++i)`
in tt.cpp. -/
def ClusterSize : Nat := 3

/-- Byte size of one `Cluster`.  Modelled from the spec: the entry layout lives
in the missing tt.h; three 10-byte entries plus padding give a 32-byte cluster
(`sizeof(Cluster)`), a power of two as the spec's size arithmetic requires. -/
def clusterBytes : Nat := 32

/-- The `msb` helper from the missing bitboard.h: index of the most significant
set bit, i.e. `floor(log2)`.  Modelled from the spec, which states that
`resize` computes `clusterCount = 2^floor(log2(megabytes*1024*1024 /
clusterByteSize))`. -/
def msb (n : Nat) : Nat := Nat.log2 n

/-- One transposition-table slot (`struct TTEntry` of tt.h, field set as used
by tt.cpp): truncated 16-bit key, move, value, static eval, packed
generation+bound byte, and depth. -/
structure TTEntry where
  key16 : Nat
  move16 : Nat
  value16 : Int
  eval16 : Int
  genBound8 : Nat
  depth8 : Int
deriving DecidableEq

/-- The all-zero slot, the state of every slot after `clear()` zero-fills the
allocation (a slot with a zero truncated key is empty). -/
def zeroEntry : TTEntry :=
  { key16 := 0, move16 := 0, value16 := 0, eval16 := 0, genBound8 := 0, depth8 := 0 }

/-- A cluster of `ClusterSize` entries (`struct Cluster` of tt.h).  The entry
array is modelled as a total function; only indices below `ClusterSize` are
ever read. -/
structure Cluster where
  entry : Nat → TTEntry

/-- The zero-filled cluster. -/
def zeroCluster : Cluster := ⟨fun _ => zeroEntry⟩

/-- The expression `g & 0xFC` applied to a `uint8_t` value: the value reduced
mod 256 with its two low bits cleared. -/
def genMask (g : Nat) : Nat := g % 256 / 4 * 4

/-- Replacement value of an entry in tt.cpp's probe:
`depth8 - ((259 + generation8 - genBound8) & 0xFC) * 2`.  The inner term is an
`int` in `[4, 514]` for byte-sized `generation8`/`genBound8`, on which `& 0xFC`
is reduction mod 256 with the two low bits cleared. -/
def entryReplaceValue (gen : Nat) (e : TTEntry) : Int :=
  e.depth8 - (259 + (gen : Int) - (e.genBound8 : Int)) % 256 / 4 * 4 * 2

/-- Global state surrounding the table: the two option reads
(`Options["Large Pages"]`), the OS facts (whether the lock-memory privilege can
be acquired, whether a large-page `VirtualAlloc` would succeed), the two global
ints `use_large_pages` and `got_privileges` of tt.cpp, and an abstract
allocator counter standing in for distinct memory addresses. -/
structure TTGlobals where
  largePagesOption : Bool
  lockMemPrivilege : Bool
  largeAllocOk : Bool
  use_large_pages : Int
  got_privileges : Int
  nextAllocId : Nat
deriving DecidableEq

/-- The function `Try_Get_LockMemory_Privileges()` of tt.cpp: resets
`use_large_pages` to 0, returns early if the option is off, resolves
`got_privileges` once (from the OS privilege check), and sets
`use_large_pages` to 1 only when privileges are held. -/
def Try_Get_LockMemory_Privileges (g : TTGlobals) : TTGlobals :=
  let g1 := { g with use_large_pages := 0 }
  if g1.largePagesOption = false then g1
  else
    let g2 :=
      if g1.got_privileges = -1 then
        if g1.lockMemPrivilege then { g1 with got_privileges := 1 }
        else { g1 with got_privileges := 0 }
      else g1
    if g2.got_privileges = 0 then g2
    else { g2 with use_large_pages := 1 }

/-- State of `class TranspositionTable` as used by tt.cpp: cluster count, the
backing array (`table`, a total function on cluster indices), the generation
counter, the remembered megabyte size, the large-page flag, and the abstract
identity of the current allocation (`mem`). -/
structure TranspositionTable where
  clusterCount : Nat
  table : Nat → Cluster
  generation8 : Nat
  mbSize_last_used : Nat
  large_pages_used : Bool
  allocId : Nat

/-- A freshly constructed table: no allocation yet, zero cluster count, zero
generation, no remembered size (globals are zero-initialized for the global
`TT` object). -/
def freshTT : TranspositionTable :=
  { clusterCount := 0, table := fun _ => zeroCluster, generation8 := 0,
    mbSize_last_used := 0, large_pages_used := false, allocId := 0 }

/-! ### Transposition table: operations (tt.cpp) -/

/-- The function `TranspositionTable::resize(mbSize)`: a zero argument reuses
`mbSize_last_used` (and is a no-op if that is also zero); otherwise the new
cluster count is the largest power of two with
`clusterCount * sizeof(Cluster) <= mbSize MB` (computed in `size_t`); if the
cluster count is unchanged and the large-page mode matches, nothing further
happens; otherwise the previous allocation is released and a fresh zeroed
allocation is obtained — by `calloc` when large pages are unavailable, by
large-page `VirtualAlloc` (falling back to `calloc` and clearing
`use_large_pages` on failure) when they are.  Allocation is modelled by a
fresh `allocId` and a zero-filled `table` (both `calloc` and
`MEM_COMMIT` zero their memory); the process-terminating path on total
allocation failure is not modelled. -/
def TranspositionTable.resize (g : TTGlobals) (tt : TranspositionTable)
    (mbSize0 : Nat) : TTGlobals × TranspositionTable :=
  let mbSize := if mbSize0 = 0 then tt.mbSize_last_used else mbSize0
  if mbSize = 0 then (g, tt)
  else
    let tt1 := { tt with mbSize_last_used := mbSize }
    let g1 := Try_Get_LockMemory_Privileges g
    let newClusterCount := 2 ^ msb (mbSize * 1024 * 1024 % 2 ^ 64 / clusterBytes)
    if newClusterCount = tt1.clusterCount ∧
        ((g1.use_large_pages = 1 ∧ tt1.large_pages_used = true) ∨
         (g1.use_large_pages = 0 ∧ tt1.large_pages_used = false)) then
      (g1, tt1)
    else
      let tt2 := { tt1 with clusterCount := newClusterCount }
      if g1.use_large_pages < 1 then
        ({ g1 with nextAllocId := g1.nextAllocId + 1 },
         { tt2 with table := fun _ => zeroCluster, large_pages_used := false,
                    allocId := g1.nextAllocId })
      else if g1.largeAllocOk then
        ({ g1 with nextAllocId := g1.nextAllocId + 1 },
         { tt2 with table := fun _ => zeroCluster, large_pages_used := true,
                    allocId := g1.nextAllocId })
      else
        ({ g1 with use_large_pages := 0, nextAllocId := g1.nextAllocId + 1 },
         { tt2 with table := fun _ => zeroCluster, large_pages_used := false,
                    allocId := g1.nextAllocId })

/-- The function `TranspositionTable::clear()`:
`std::memset(table, 0, clusterCount * sizeof(Cluster))` — every in-range
cluster becomes zero-filled; the generation counter is untouched. -/
def TranspositionTable.clear (tt : TranspositionTable) : TranspositionTable :=
  { tt with table := fun i => if i < tt.clusterCount then zeroCluster else tt.table i }

/-- First scan loop of `TranspositionTable::probe`: the first slot index whose
truncated key is zero or matches the probe key. -/
def Cluster.scan (c : Cluster) (k16 : Nat) : Option Nat :=
  (List.range ClusterSize).find? fun i =>
    (c.entry i).key16 == 0 || (c.entry i).key16 == k16

/-- Second scan loop of `TranspositionTable::probe`: starting from slot 0,
replace the candidate whenever its replacement value strictly exceeds the
current slot's. -/
def Cluster.replaceIndex (c : Cluster) (gen : Nat) : Nat :=
  ((List.range ClusterSize).drop 1).foldl
    (fun r i =>
      if entryReplaceValue gen (c.entry r) > entryReplaceValue gen (c.entry i)
      then i else r) 0

/-- Result of a probe: the `found` flag, the value of the returned slot (after
any in-place generation refresh), and the slot's location (the returned
`TTEntry*` is `&table[clusterIdx].entry[slotIdx]`). -/
structure ProbeResult where
  found : Bool
  entry : TTEntry
  clusterIdx : Nat
  slotIdx : Nat

/-- The function `TranspositionTable::probe(key, found)`: the cluster is
selected by the low bits of the key (`first_entry` of the missing tt.h,
modelled from the spec as `key & (clusterCount - 1)`), the probe key is the
high 16 bits; the cluster is scanned for an empty or matching slot — on a hit
with a stale generation the slot's `genBound8` is refreshed in place by `+= 4`
(byte arithmetic) — and `found` reports whether the returned slot's truncated
key is nonzero; if no slot matches, the replacement victim is returned with
`found = false` and the state unchanged. -/
def TranspositionTable.probe (tt : TranspositionTable) (key : Nat) :
    ProbeResult × TranspositionTable :=
  let cIdx := key &&& (tt.clusterCount - 1)
  let c := tt.table cIdx
  let key16 := key / 2 ^ 48 % 2 ^ 16
  match c.scan key16 with
  | some i =>
      let e := c.entry i
      let e1 := if genMask e.genBound8 ≠ tt.generation8 ∧ e.key16 ≠ 0 then
                  { e with genBound8 := (e.genBound8 + 4) % 256 } else e
      let c1 : Cluster := ⟨fun j => if j = i then e1 else c.entry j⟩
      ({ found := e1.key16 != 0, entry := e1, clusterIdx := cIdx, slotIdx := i },
       { tt with table := fun j => if j = cIdx then c1 else tt.table j })
  | none =>
      let r := c.replaceIndex tt.generation8
      ({ found := false, entry := c.entry r, clusterIdx := cIdx, slotIdx := r }, tt)

/-- The function `TranspositionTable::hashfull()`: over the first
`1000 / ClusterSize` clusters, count the slots whose masked generation byte
equals the current generation. -/
def TranspositionTable.hashfull (tt : TranspositionTable) : Nat :=
  (List.range (1000 / ClusterSize)).foldl
    (fun cnt i =>
      (List.range ClusterSize).foldl
        (fun cnt2 j =>
          if genMask ((tt.table i).entry j).genBound8 = tt.generation8
          then cnt2 + 1 else cnt2) cnt) 0

/-- The function `TranspositionTable::save()`: the file written is the raw
image of `clusterCount * sizeof(Cluster)` bytes starting at `table`, modelled
at cluster granularity as the list of the first `clusterCount` clusters
(byte-identical files correspond exactly to equal cluster lists, since a
cluster is a fixed-size byte image). -/
def TranspositionTable.save (tt : TranspositionTable) : List Cluster :=
  (List.range tt.clusterCount).map tt.table

/-- The function `TranspositionTable::load()`: the byte length of the file is
taken (`tellg` on a stream opened at the end), the table is resized to
`size / 1024 / 1024` megabytes, and `clusterCount * sizeof(Cluster)` bytes are
read back into the table (a shorter file fills only its own length). -/
def TranspositionTable.load (g : TTGlobals) (tt : TranspositionTable)
    (file : List Cluster) : TTGlobals × TranspositionTable :=
  let size := file.length * clusterBytes
  let gt := TranspositionTable.resize g tt (size / 1024 / 1024)
  (gt.1,
   { gt.2 with table := fun i =>
      if i < gt.2.clusterCount ∧ i < file.length then (file.getD i zeroCluster)
      else gt.2.table i })

/-! ### NUMA registry (numasf.h / numasf.cpp, Linux branch) -/

/-- A CPU membership mask: either an explicit bit list (as parsed from the OS)
or the full mask produced by `numa_bitmask_setall` for the dummy node. -/
inductive CpuMask where
  | bits : List Nat → CpuMask
  | allBits : CpuMask
deriving DecidableEq

/-- The `class NumaNode` of numasf.h: OS node id (or the sentinel `-1`),
physical core count, and CPU membership mask.  The lazily allocated per-node
scratch pointer (`cmhTable`) plays no role in the claims and is omitted. -/
structure NumaNode where
  nodeNumber : Int
  coreCount : Nat
  mask : CpuMask
deriving DecidableEq

/-- The dummy fallback node pushed by the `NumaState` constructor when
discovery yields nothing: sentinel id `-1`, whole-machine mask
(`numa_bitmask_setall`), and the node's own core count left at the
constructor's initial 0. -/
def dummyNumaNode : NumaNode :=
  { nodeNumber := -1, coreCount := 0, mask := CpuMask.allBits }

/-- The `class NumaState` registry: ordered node vector plus global core
count. -/
structure NumaState where
  nodeVector : List NumaNode
  coreCount : Nat
deriving DecidableEq

/-- Tail of the `NumaState` constructor (numasf.cpp): whatever topology
discovery produced, if the counted core total is zero all discovered nodes are
discarded and the total is forced to 1, and if the node vector is then empty a
single dummy node is synthesized.  The OS-dependent discovery loops are
abstracted as the `nodes`/`cores` inputs. -/
def NumaState.finalize (nodes : List NumaNode) (cores : Nat) : NumaState :=
  let nodes1 := if cores = 0 then [] else nodes
  let cores1 := if cores = 0 then 1 else cores
  let nodes2 := if nodes1.length = 0 then [dummyNumaNode] else nodes1
  { nodeVector := nodes2, coreCount := cores1 }

/-- Inner loop of `NumaState::nodeForThread`: subtract each node's core count
from the running index and stop at the node that takes it below zero,
returning that node's position. -/
def NumaState.walkLoop : List NumaNode → Int → Option Nat
  | [], _ => none
  | node :: rest, i =>
      let i1 := i - (node.coreCount : Int)
      if i1 < 0 then some 0 else (NumaState.walkLoop rest i1).map (· + 1)

/-- The function `NumaState::nodeForThread(threadIdx)`: a single-node registry
returns node 0 unconditionally; otherwise `threadIdx % coreCount` walks the
concatenated core-count segments, with a fallback to node 0 on the
"not expected to get here" exit.  The returned `NumaNode*` is modelled as the
node's position in `nodeVector`. -/
def NumaState.nodeForThread (s : NumaState) (threadIdx : Nat) : Nat :=
  if s.nodeVector.length = 1 then 0
  else
    match NumaState.walkLoop s.nodeVector ((threadIdx % s.coreCount : Nat) : Int) with
    | some n => n
    | none => 0

/-- Specification-side restatement of the assignment rule, for comparison with
`nodeForThread`: position `p` on the line formed by concatenating each node's
core-count-sized segment in registry order belongs to the first node whose
segment contains it. -/
def segmentOwner : List NumaNode → Nat → Nat
  | [], _ => 0
  | node :: rest, p =>
      if p < node.coreCount then 0 else segmentOwner rest (p - node.coreCount) + 1

/-- The two-node registry of the scenario in the claim: core counts 4 and 4,
total 8. -/
def reg44 : NumaState :=
  { nodeVector :=
      [ { nodeNumber := 0, coreCount := 4, mask := CpuMask.bits [0, 1, 2, 3] },
        { nodeNumber := 1, coreCount := 4, mask := CpuMask.bits [4, 5, 6, 7] } ],
    coreCount := 8 }

/-! ### Time manager (src/src/timeman.cpp) -/

/-- The C++ `double`-to-`int` conversion: truncation toward zero. -/
noncomputable def cppToInt (x : ℝ) : Int := if 0 ≤ x then ⌊x⌋ else ⌈x⌉

/-- The helper `gauss(x, a, b) = exp(-(x - a) * (x - a) / b)` of timeman.cpp,
with the `int` argument promoted to a real. -/
noncomputable def gauss (x : Int) (a b : ℝ) : ℝ :=
  Real.exp (-((x : ℝ) - a) * ((x : ℝ) - a) / b)

/-- The local `mn = (ply + 1) / 2` of `remaining`: current move number, C++
integer division (truncation toward zero). -/
def mnOf (ply : Int) : Int := Int.tdiv (ply + 1) 2

/-- The local `sd` of `remaining`: initialized to 8.5 and reassigned to the
sudden-death growth factor only when `movesToGo` is zero. -/
noncomputable def sdOf (movesToGo ply : Int) : ℝ :=
  if movesToGo ≠ 0 then 8.5
  else 1.0 + 13.5 * (mnOf ply : ℝ) / (500.0 + (mnOf ply : ℝ))

/-- The local `TRatio` of `remaining<T>` (`T = true` is `OptimumTime`,
`T = false` is `MaxTime`): in the movestogo case a Gaussian-weighted share of
the remaining moves (flat 1.3 factor after move 40), otherwise the
sudden-death ratio scaled by `sd`. -/
noncomputable def TRatioOf (T : Bool) (movesToGo ply : Int) : ℝ :=
  if movesToGo ≠ 0 then
    (if T then 0.9 else 5.6) / (movesToGo : ℝ) *
      (if mnOf ply ≤ 40 then gauss movesToGo 19.0 1600.0 else 1.3)
  else (if T then 0.018 else 0.074) * sdOf movesToGo ply

/-- The local `incUsage = 49.0 + 28.5 * gauss(mn, 20.0, 465.0)` of
`remaining`. -/
noncomputable def incUsageOf (ply : Int) : ℝ := 49.0 + 28.5 * gauss (mnOf ply) 20.0 465.0

/-- The local `ratio` of `remaining`:
`min(1.0, TRatio * (1.0 + incUsage * myInc / (myTime * sd)))`. -/
noncomputable def ratioOf (T : Bool) (myTime myInc movesToGo ply : Int) : ℝ :=
  min 1.0 (TRatioOf T movesToGo ply *
    (1.0 + incUsageOf ply * (myInc : ℝ) / ((myTime : ℝ) * sdOf movesToGo ply)))

/-- The local `hypMyTime = std::max(0, myTime - moveOverhead)` of
`remaining`. -/
def hypMyTimeOf (myTime moveOverhead : Int) : Int := max 0 (myTime - moveOverhead)

/-- The function `remaining<T>(myTime, myInc, moveOverhead, movesToGo, ply)` of
timeman.cpp: `int(hypMyTime * ratio)`. -/
noncomputable def remaining (T : Bool) (myTime myInc moveOverhead movesToGo ply : Int) : Int :=
  cppToInt ((hypMyTimeOf myTime moveOverhead : ℝ) * ratioOf T myTime myInc movesToGo ply)

/-- The function `TimeManagement::init` of timeman.cpp on the wall-clock path
(`Options["nodestime"] == 0`, so the nodes-as-time conversion block is
skipped), returning `(optimumTime, maximumTime)`: both durations come from
`remaining`, and with pondering enabled `optimumTime += optimumTime / 4`
(C++ integer division). -/
noncomputable def TimeManagement.init (ponder : Bool)
    (myTime myInc moveOverhead movesToGo ply : Int) : Int × Int :=
  let optimumTime := remaining true myTime myInc moveOverhead movesToGo ply
  let maximumTime := remaining false myTime myInc moveOverhead movesToGo ply
  (if ponder then optimumTime + Int.tdiv optimumTime 4 else optimumTime, maximumTime)

/-! ### Concrete states used by witnesses and counterexamples -/

/-- Globals with the Large Pages option off, as zero-initialized at startup
apart from the option reads. -/
def g0 : TTGlobals :=
  { largePagesOption := false, lockMemPrivilege := false, largeAllocOk := false,
    use_large_pages := -1, got_privileges := -1, nextAllocId := 1 }

/-- A table sized at 1 MB (2^15 clusters of 32 bytes) with zeroed contents and
standard allocation. -/
def stMB1 : TranspositionTable :=
  { clusterCount := 2 ^ 15, table := fun _ => zeroCluster, generation8 := 4,
    mbSize_last_used := 1, large_pages_used := false, allocId := 0 }

/-- A sized table whose generation counter is 0, as for the global `TT` object
before any `new_search()` call. -/
def stGen0 : TranspositionTable :=
  { clusterCount := 400, table := fun _ => zeroCluster, generation8 := 0,
    mbSize_last_used := 1, large_pages_used := false, allocId := 0 }

/-! ### Helper lemmas: resize arithmetic -/

/-- Helper: log2 of a power of two. -/
theorem log2_two_pow (k : Nat) : Nat.log2 (2 ^ k) = k := by
  rw [Nat.log2_eq_log_two]
  exact Nat.log_pow one_lt_two k

/-- Helper: the cluster count computed by `resize` for a nonzero megabyte
request that does not overflow `size_t`. -/
theorem resize_clusterCount_formula (g : TTGlobals) (tt : TranspositionTable)
    (mb : Nat) (h1 : 1 ≤ mb) (h2 : mb * 1048576 < 2 ^ 64) :
    ((TranspositionTable.resize g tt mb).2).clusterCount =
      2 ^ Nat.log2 (mb * 1048576 / clusterBytes) := by
  have hne : ¬ (mb = 0) := by omega
  have he : mb * 1024 * 1024 = mb * 1048576 := by
    rw [mul_assoc]
    norm_num
  have harith : mb * 1024 * 1024 % 2 ^ 64 = mb * 1048576 := by
    rw [he]
    exact Nat.mod_eq_of_lt h2
  unfold TranspositionTable.resize
  simp only [if_neg hne, msb]
  rw [harith]
  split_ifs with hcase h2case h3case
  · exact hcase.1.symm
  · rfl
  · rfl
  · rfl

/-- Claim C4: for every valid megabyte size, `resize(megabytes)` sets
`clusterCount` to `2^floor(log2(megabytes*1024*1024 / clusterByteSize))`, the
largest power-of-two cluster count whose total byte size does not exceed the
requested bytes. -/
theorem resize_sets_power_of_two_clusterCount (g : TTGlobals)
    (tt : TranspositionTable) (mb : Nat) (h1 : 1 ≤ mb)
    (h2 : mb * 1048576 < 2 ^ 64) :
    ((TranspositionTable.resize g tt mb).2).clusterCount =
      2 ^ Nat.log2 (mb * 1024 * 1024 / clusterBytes) := by
  rw [resize_clusterCount_formula g tt mb h1 h2, mul_assoc]
  norm_num

/-- Witness for C4 at a concrete 4 MB request: the resulting cluster count is
`2^17 = 4 MB / 32 B`. -/
theorem resize_sets_power_of_two_clusterCount_witness :
    1 ≤ 4 ∧ 4 * 1048576 < 2 ^ 64 ∧
    ((TranspositionTable.resize g0 stMB1 4).2).clusterCount =
      2 ^ Nat.log2 (4 * 1024 * 1024 / clusterBytes) :=
  ⟨by norm_num, by norm_num,
    resize_sets_power_of_two_clusterCount g0 stMB1 4 (by norm_num) (by norm_num)⟩

/-- Claim C9: a resize whose computed cluster count equals the current one,
with an unchanged large-page allocation mode, performs no reallocation: the
backing allocation, table contents, cluster count and large-page flag are all
left as they were (only the remembered megabyte size is re-recorded). -/
theorem resize_same_size_is_noop (g : TTGlobals) (tt : TranspositionTable)
    (mb : Nat) (h1 : 1 ≤ mb)
    (hcc : 2 ^ msb (mb * 1024 * 1024 % 2 ^ 64 / clusterBytes) = tt.clusterCount)
    (hmode :
      ((Try_Get_LockMemory_Privileges g).use_large_pages = 1 ∧
        tt.large_pages_used = true) ∨
      ((Try_Get_LockMemory_Privileges g).use_large_pages = 0 ∧
        tt.large_pages_used = false)) :
    (TranspositionTable.resize g tt mb).2 = { tt with mbSize_last_used := mb } ∧
    (TranspositionTable.resize g tt mb).1 = Try_Get_LockMemory_Privileges g := by
  have hne : ¬ (mb = 0) := by omega
  unfold TranspositionTable.resize
  simp only [if_neg hne]
  rw [if_pos ⟨hcc, hmode⟩]
  exact ⟨rfl, rfl⟩

/-- Helper: the cluster count a 1 MB request computes. -/
theorem msb_oneMB : 2 ^ msb (1 * 1024 * 1024 % 2 ^ 64 / clusterBytes) = 2 ^ 15 := by
  have h : 1 * 1024 * 1024 % 2 ^ 64 / clusterBytes = 2 ^ 15 := by
    norm_num [clusterBytes]
  rw [msb, h, log2_two_pow]

/-- Witness for C9: re-requesting 1 MB on a table already holding 2^15
clusters with standard allocation changes nothing but the remembered size
(which is already 1). -/
theorem resize_same_size_is_noop_witness :
    1 ≤ 1 ∧
    (TranspositionTable.resize g0 stMB1 1).2 = { stMB1 with mbSize_last_used := 1 } ∧
    (TranspositionTable.resize g0 stMB1 1).1 = Try_Get_LockMemory_Privileges g0 :=
  ⟨by norm_num,
    (resize_same_size_is_noop g0 stMB1 1 (by norm_num) (by rw [msb_oneMB]; decide)
      (by decide)).1,
    (resize_same_size_is_noop g0 stMB1 1 (by norm_num) (by rw [msb_oneMB]; decide)
      (by decide)).2⟩

/-- Claim C10: `resize(0)` before any successful resize leaves the table
completely unchanged, and after a successful `resize(N)` it behaves exactly as
`resize(N)`, reusing the last-used megabyte size. -/
theorem resize_zero_reuses_last_size (g : TTGlobals) (tt : TranspositionTable) :
    (tt.mbSize_last_used = 0 → TranspositionTable.resize g tt 0 = (g, tt)) ∧
    (tt.mbSize_last_used ≠ 0 →
      TranspositionTable.resize g tt 0 =
        TranspositionTable.resize g tt tt.mbSize_last_used) := by
  constructor
  · intro h
    unfold TranspositionTable.resize
    simp [h]
  · intro h
    unfold TranspositionTable.resize
    simp [h]

/-- Witness for C10: a fresh table ignores `resize(0)`; a table last sized at
1 MB treats `resize(0)` as `resize(1)`. -/
theorem resize_zero_reuses_last_size_witness :
    TranspositionTable.resize g0 freshTT 0 = (g0, freshTT) ∧
    TranspositionTable.resize g0 stMB1 0 = TranspositionTable.resize g0 stMB1 1 :=
  ⟨(resize_zero_reuses_last_size g0 freshTT).1 rfl,
    (resize_zero_reuses_last_size g0 stMB1).2 (by decide)⟩

/-! ### Save / load round trip -/

/-- Helper: reading back the i-th cluster of a saved file recovers the table
contents. -/
theorem save_getD (tt : TranspositionTable) (i : Nat) (hi : i < tt.clusterCount) :
    (TranspositionTable.save tt).getD i zeroCluster = tt.table i := by
  rw [TranspositionTable.save, List.getD_eq_getElem?_getD]
  simp [List.getElem?_map, List.getElem?_range hi]

/-- Helper: the byte length of a saved table, divided down to megabytes,
recovers the exponent shifted by 15 when the table holds `2^k` 32-byte
clusters with `k ≥ 15`. -/
theorem save_mb (k : Nat) (hk15 : 15 ≤ k) :
    2 ^ k * clusterBytes / 1024 / 1024 = 2 ^ (k - 15) := by
  rw [clusterBytes, Nat.div_div_eq_div_mul]
  have h1 : (1024 * 1024 : Nat) = 2 ^ 20 := by norm_num
  have h32 : (32 : Nat) = 2 ^ 5 := by norm_num
  rw [h1, h32, ← pow_add, Nat.pow_div (by omega) (by norm_num)]
  congr 1

/-- Helper: resizing a fresh table to `2^(k-15)` megabytes yields `2^k`
clusters. -/
theorem resize_fresh_pow (g : TTGlobals) (k : Nat) (hk15 : 15 ≤ k) (hk58 : k ≤ 58) :
    ((TranspositionTable.resize g freshTT (2 ^ (k - 15))).2).clusterCount = 2 ^ k := by
  have hbound : 2 ^ (k - 15) * 1048576 < 2 ^ 64 := by
    have h1 : (1048576 : Nat) = 2 ^ 20 := by norm_num
    rw [h1, ← pow_add]
    exact Nat.pow_lt_pow_right (by norm_num) (by omega)
  rw [resize_clusterCount_formula g freshTT _ (Nat.one_le_two_pow) hbound]
  have h2 : 2 ^ (k - 15) * 1048576 / clusterBytes = 2 ^ k := by
    have h1 : (1048576 : Nat) = 2 ^ 20 := by norm_num
    rw [clusterBytes, h1, ← pow_add, show (32:Nat) = 2 ^ 5 by norm_num,
      Nat.pow_div (by omega) (by norm_num)]
    congr 1
    omega
  rw [h2, log2_two_pow]

/-- Claim C3: `save()` followed by `load()` into a freshly constructed table
reproduces the cluster contents byte-identically for every cluster, with
`load` inferring the table size from the file's byte length and resizing
before reading; stated for any table sized by `resize` (a power-of-two cluster
count of at least 1 MB worth of clusters). -/
theorem save_load_roundtrip (g : TTGlobals) (tt : TranspositionTable)
    (k i : Nat) (hk : tt.clusterCount = 2 ^ k) (hk15 : 15 ≤ k) (hk58 : k ≤ 58)
    (hi : i < tt.clusterCount) :
    ((TranspositionTable.load g freshTT tt.save).2).clusterCount = tt.clusterCount ∧
    ((TranspositionTable.load g freshTT tt.save).2).table i = tt.table i := by
  have hlen : (TranspositionTable.save tt).length = 2 ^ k := by
    simp [TranspositionTable.save, hk]
  have hmb : (TranspositionTable.save tt).length * clusterBytes / 1024 / 1024 =
      2 ^ (k - 15) := by
    rw [hlen]
    exact save_mb k hk15
  have hcc := resize_fresh_pow g k hk15 hk58
  constructor
  · simp only [TranspositionTable.load]
    rw [hmb, hcc, hk]
  · simp only [TranspositionTable.load]
    rw [hmb]
    have hcond : i < ((TranspositionTable.resize g freshTT (2 ^ (k - 15))).2).clusterCount ∧
        i < (TranspositionTable.save tt).length := by
      constructor
      · rw [hcc, ← hk]
        exact hi
      · rw [hlen, ← hk]
        exact hi
    rw [if_pos hcond]
    exact save_getD tt i hi

/-- Witness for C3 at a 1 MB table (`2^15` clusters), cluster 7. -/
theorem save_load_roundtrip_witness :
    stMB1.clusterCount = 2 ^ 15 ∧ 7 < stMB1.clusterCount ∧
    ((TranspositionTable.load g0 freshTT stMB1.save).2).clusterCount =
      stMB1.clusterCount ∧
    ((TranspositionTable.load g0 freshTT stMB1.save).2).table 7 = stMB1.table 7 :=
  ⟨by decide, by decide,
    (save_load_roundtrip g0 stMB1 15 7 (by decide) (by decide) (by decide) (by decide)).1,
    (save_load_roundtrip g0 stMB1 15 7 (by decide) (by decide) (by decide) (by decide)).2⟩

/-! ### Probe after clear -/

/-- Helper: scanning the zero cluster stops at slot 0 (its truncated key is
zero). -/
theorem scan_zeroCluster (k16 : Nat) : zeroCluster.scan k16 = some 0 := rfl

/-- Claim C2: after `clear()`, `probe(key)` reports `found = false` for every
64-bit key, and the returned slot has a zero truncated key. -/
theorem clear_then_probe_misses (tt : TranspositionTable) (key : Nat)
    (h1 : 0 < tt.clusterCount) (_h2 : key < 2 ^ 64) :
    ((tt.clear.probe key).1).found = false ∧
    ((tt.clear.probe key).1).entry.key16 = 0 := by
  have hidx : key &&& (tt.clusterCount - 1) < tt.clusterCount :=
    lt_of_le_of_lt Nat.and_le_right (by omega)
  have hc : (tt.clear).table (key &&& ((tt.clear).clusterCount - 1)) = zeroCluster := by
    simp only [TranspositionTable.clear]
    exact if_pos hidx
  simp only [TranspositionTable.probe]
  rw [hc, scan_zeroCluster]
  simp [zeroCluster, zeroEntry]

/-- Witness for C2 on a sized table and an arbitrary concrete key. -/
theorem clear_then_probe_misses_witness :
    0 < stMB1.clusterCount ∧
    ((stMB1.clear.probe 81985529216486895).1).found = false ∧
    ((stMB1.clear.probe 81985529216486895).1).entry.key16 = 0 :=
  ⟨by decide,
    (clear_then_probe_misses stMB1 81985529216486895 (by decide) (by decide)).1,
    (clear_then_probe_misses stMB1 81985529216486895 (by decide) (by decide)).2⟩

/-! ### Hashfull -/

/-- Helper: the inner hashfull loop adds nothing when no slot of the cluster
matches the current generation. -/
theorem hashfull_inner_none (tt : TranspositionTable) (i cnt : Nat)
    (h : ∀ j, j < ClusterSize →
      genMask ((tt.table i).entry j).genBound8 ≠ tt.generation8) :
    (List.range ClusterSize).foldl
      (fun cnt2 j =>
        if genMask ((tt.table i).entry j).genBound8 = tt.generation8
        then cnt2 + 1 else cnt2) cnt = cnt := by
  show List.foldl _ cnt [0, 1, 2] = cnt
  rw [List.foldl_cons, if_neg (h 0 (by decide)), List.foldl_cons,
    if_neg (h 1 (by decide)), List.foldl_cons, if_neg (h 2 (by decide)),
    List.foldl_nil]

/-- Helper: the inner hashfull loop adds `ClusterSize` when every slot of the
cluster matches the current generation. -/
theorem hashfull_inner_all (tt : TranspositionTable) (i cnt : Nat)
    (h : ∀ j, j < ClusterSize →
      genMask ((tt.table i).entry j).genBound8 = tt.generation8) :
    (List.range ClusterSize).foldl
      (fun cnt2 j =>
        if genMask ((tt.table i).entry j).genBound8 = tt.generation8
        then cnt2 + 1 else cnt2) cnt = cnt + 3 := by
  show List.foldl _ cnt [0, 1, 2] = cnt + 3
  rw [List.foldl_cons, if_pos (h 0 (by decide)), List.foldl_cons,
    if_pos (h 1 (by decide)), List.foldl_cons, if_pos (h 2 (by decide)),
    List.foldl_nil]

/-- Helper: the outer hashfull loop leaves the counter unchanged when no
scanned slot matches. -/
theorem hashfull_outer_none (tt : TranspositionTable) (l : List Nat) (cnt : Nat)
    (h : ∀ i ∈ l, ∀ j, j < ClusterSize →
      genMask ((tt.table i).entry j).genBound8 ≠ tt.generation8) :
    l.foldl
      (fun cnt i =>
        (List.range ClusterSize).foldl
          (fun cnt2 j =>
            if genMask ((tt.table i).entry j).genBound8 = tt.generation8
            then cnt2 + 1 else cnt2) cnt) cnt = cnt := by
  induction l generalizing cnt with
  | nil => rfl
  | cons a l ih =>
      rw [List.foldl_cons, hashfull_inner_none tt a cnt (h a (List.mem_cons_self a l))]
      exact ih cnt fun i hi => h i (List.mem_cons_of_mem a hi)

/-- Helper: the outer hashfull loop counts three slots per cluster when every
scanned slot matches. -/
theorem hashfull_outer_all (tt : TranspositionTable) (l : List Nat) (cnt : Nat)
    (h : ∀ i ∈ l, ∀ j, j < ClusterSize →
      genMask ((tt.table i).entry j).genBound8 = tt.generation8) :
    l.foldl
      (fun cnt i =>
        (List.range ClusterSize).foldl
          (fun cnt2 j =>
            if genMask ((tt.table i).entry j).genBound8 = tt.generation8
            then cnt2 + 1 else cnt2) cnt) cnt = cnt + 3 * l.length := by
  induction l generalizing cnt with
  | nil => rfl
  | cons a l ih =>
      rw [List.foldl_cons, hashfull_inner_all tt a cnt (h a (List.mem_cons_self a l)),
        ih (cnt + 3) fun i hi => h i (List.mem_cons_of_mem a hi)]
      simp only [List.length_cons]
      ring

/-- Counterexample to claim C7 as stated: on a sized table whose current
generation byte is 0 — the startup state of the global table before any
new-search generation bump — `hashfull()` immediately after `clear()` returns
999, not 0, because every zeroed slot's masked generation byte equals the
current generation. -/
theorem hashfull_after_clear_gen0 :
    (stGen0.clear).hashfull = 999 ∧ (stGen0.clear).hashfull ≠ 0 := by
  have h : (stGen0.clear).hashfull = 999 := by
    unfold TranspositionTable.hashfull
    rw [hashfull_outer_all]
    · norm_num [List.length_range, ClusterSize]
    · intro i hi j hj
      have hlt : i < 400 := by
        have h3 := List.mem_range.mp hi
        norm_num [ClusterSize] at h3
        omega
      simp [TranspositionTable.clear, stGen0, if_pos hlt, zeroCluster, zeroEntry, genMask]
  exact ⟨h, by rw [h]; decide⟩

/-- Claim C7, amended: immediately after `clear()`, `hashfull()` returns 0
provided the current generation byte is nonzero (with generation 0 every
zeroed slot counts as current, giving 999); and when every slot of the scanned
prefix matches the current generation, `hashfull()` reaches its maximum 999,
approaching 1000. -/
theorem hashfull_zero_after_clear_and_caps (tt tt2 : TranspositionTable)
    (hgen : tt.generation8 ≠ 0)
    (hcc : 1000 / ClusterSize ≤ tt.clusterCount)
    (hfull : ∀ i, i < 1000 / ClusterSize → ∀ j, j < ClusterSize →
      genMask ((tt2.table i).entry j).genBound8 = tt2.generation8) :
    (tt.clear).hashfull = 0 ∧ tt2.hashfull = 999 := by
  constructor
  · unfold TranspositionTable.hashfull
    apply hashfull_outer_none
    intro i hi j hj
    have hlt : i < tt.clusterCount := (List.mem_range.mp hi).trans_le hcc
    simp only [TranspositionTable.clear, if_pos hlt, zeroCluster, zeroEntry, genMask]
    simpa using fun hh => hgen hh.symm
  · unfold TranspositionTable.hashfull
    rw [hashfull_outer_all tt2 _ 0 fun i hi => hfull i (List.mem_range.mp hi)]
    norm_num [List.length_range, ClusterSize]

/-- Witness for the amended C7: a generation-4 table reads 0 after clear, and
a table whose scanned prefix fully matches its generation reads 999. -/
theorem hashfull_zero_after_clear_and_caps_witness :
    stMB1.generation8 ≠ 0 ∧
    (stMB1.clear).hashfull = 0 ∧ stGen0.hashfull = 999 :=
  ⟨by decide,
    (hashfull_zero_after_clear_and_caps stMB1 stGen0 (by decide) (by decide)
      (by decide)).1,
    (hashfull_zero_after_clear_and_caps stMB1 stGen0 (by decide) (by decide)
      (by decide)).2⟩

/-! ### NUMA registry -/

/-- Helper: when the position is inside the concatenated segments, the
subtract-until-negative walk finds exactly the segment owner. -/
theorem walkLoop_eq_segmentOwner (l : List NumaNode) (p : Nat)
    (hp : p < (l.map NumaNode.coreCount).sum) :
    NumaState.walkLoop l ((p : Nat) : Int) = some (segmentOwner l p) := by
  induction l generalizing p with
  | nil => simp at hp
  | cons a l ih =>
      simp only [NumaState.walkLoop, segmentOwner]
      by_cases hcase : p < a.coreCount
      · have hneg : (p : Int) - (a.coreCount : Int) < 0 := by omega
        rw [if_pos hneg, if_pos hcase]
      · have hle : a.coreCount ≤ p := Nat.le_of_not_lt hcase
        rw [if_neg (by omega), if_neg hcase]
        have hcast : (p : Int) - (a.coreCount : Int) = ((p - a.coreCount : Nat) : Int) := by
          omega
        have hp2 : p - a.coreCount < (l.map NumaNode.coreCount).sum := by
          simp only [List.map_cons, List.sum_cons] at hp
          omega
        rw [hcast, ih (p - a.coreCount) hp2]
        rfl

/-- Claim C5: `nodeForThread` is deterministic for a fixed registry and
implements the segment walk on `threadIndex mod totalCoreCount` over the
nodes' core-count-sized segments in registry order (stated for registries
satisfying the constructor's invariant that the total is the sum of the node
core counts); a single-node registry returns that node unconditionally; and in
the two-node {4, 4} registry, indices 0..3 map to node 0, 4..7 to node 1, and
index 9 to node 0. -/
theorem nodeForThread_segment_walk (s : NumaState) (t : Nat)
    (hsum : s.coreCount = (s.nodeVector.map NumaNode.coreCount).sum)
    (hpos : 0 < s.coreCount) :
    s.nodeForThread t = segmentOwner s.nodeVector (t % s.coreCount) ∧
    (s.nodeVector.length = 1 → s.nodeForThread t = 0) ∧
    (∀ u, u < 4 → reg44.nodeForThread u = 0) ∧
    (∀ u, 4 ≤ u → u < 8 → reg44.nodeForThread u = 1) ∧
    reg44.nodeForThread 9 = 0 := by
  have hwalk : s.nodeVector.length ≠ 1 →
      s.nodeForThread t = segmentOwner s.nodeVector (t % s.coreCount) := by
    intro hlen
    have hp : t % s.coreCount < (s.nodeVector.map NumaNode.coreCount).sum :=
      hsum ▸ Nat.mod_lt t hpos
    unfold NumaState.nodeForThread
    rw [if_neg hlen, walkLoop_eq_segmentOwner s.nodeVector _ hp]
  refine ⟨?_, ?_, by decide, ?_, by decide⟩
  · by_cases hlen : s.nodeVector.length = 1
    · obtain ⟨a, ha⟩ : ∃ a, s.nodeVector = [a] := by
        cases hv : s.nodeVector with
        | nil => rw [hv] at hlen; simp at hlen
        | cons a l =>
            rw [hv] at hlen
            simp at hlen
            exact ⟨a, by rw [hlen]⟩
      have hmod : t % s.coreCount < a.coreCount := by
        have : s.coreCount = a.coreCount := by
          rw [hsum, ha]
          simp
        rw [this] at hpos ⊢
        exact Nat.mod_lt t hpos
      unfold NumaState.nodeForThread
      rw [if_pos hlen, ha]
      simp only [segmentOwner]
      rw [if_pos hmod]
    · exact hwalk hlen
  · intro hlen
    unfold NumaState.nodeForThread
    rw [if_pos hlen]
  · intro u h4 h8
    interval_cases u <;> decide

/-- Witness for C5: the {4, 4} registry satisfies the invariant, and thread 9
lands where the segment walk puts it. -/
theorem nodeForThread_segment_walk_witness :
    reg44.coreCount = (reg44.nodeVector.map NumaNode.coreCount).sum ∧
    0 < reg44.coreCount ∧
    reg44.nodeForThread 9 = segmentOwner reg44.nodeVector (9 % reg44.coreCount) :=
  ⟨by decide, by decide,
    (nodeForThread_segment_walk reg44 9 (by decide) (by decide)).1⟩

/-- Claim C6: after construction the node vector is non-empty and the total
core count is at least 1; when discovery counts zero cores, all discovered
nodes are discarded and exactly one dummy node (sentinel id -1, whole-machine
mask) is synthesized with the total forced to 1. -/
theorem numaState_fallback (nodes : List NumaNode) (cores : Nat) :
    (NumaState.finalize nodes cores).nodeVector ≠ [] ∧
    1 ≤ (NumaState.finalize nodes cores).coreCount ∧
    (cores = 0 →
      NumaState.finalize nodes cores =
        { nodeVector := [dummyNumaNode], coreCount := 1 } ∧
      dummyNumaNode.nodeNumber = -1 ∧ dummyNumaNode.mask = CpuMask.allBits) := by
  unfold NumaState.finalize
  by_cases h0 : cores = 0
  · simp [h0, dummyNumaNode]
  · simp only [h0, if_neg h0, if_false]
    by_cases hn : nodes.length = 0
    · simp [hn]
      omega
    · simp [hn]
      exact ⟨fun hnil => hn (by rw [hnil]; rfl), by omega⟩

/-- Witness for C6 at the empty discovery outcome. -/
theorem numaState_fallback_witness :
    (NumaState.finalize [] 0).nodeVector ≠ [] ∧
    NumaState.finalize [] 0 = { nodeVector := [dummyNumaNode], coreCount := 1 } :=
  ⟨(numaState_fallback [] 0).1, ((numaState_fallback [] 0).2.2 rfl).1⟩

/-! ### Time manager: sign and monotonicity helpers -/

/-- Helper: the move number is nonnegative for nonnegative ply. -/
theorem mnOf_nonneg (ply : Int) (h : 0 ≤ ply) : 0 ≤ mnOf ply :=
  Int.tdiv_nonneg (by omega) (by norm_num)

/-- Helper: `gauss` is strictly positive. -/
theorem gauss_pos (x : Int) (a b : ℝ) : 0 < gauss x a b := Real.exp_pos _

/-- Helper: the `sd` factor is strictly positive for nonnegative ply. -/
theorem sdOf_pos (movesToGo ply : Int) (h : 0 ≤ ply) : 0 < sdOf movesToGo ply := by
  unfold sdOf
  split_ifs
  · norm_num
  · have h1 : (0:ℝ) ≤ (mnOf ply : ℝ) := by exact_mod_cast mnOf_nonneg ply h
    have h2 : (0:ℝ) ≤ 13.5 * (mnOf ply : ℝ) / (500.0 + (mnOf ply : ℝ)) :=
      div_nonneg (by linarith) (by linarith)
    linarith

/-- Helper: `incUsage` is strictly positive. -/
theorem incUsageOf_pos (ply : Int) : 0 < incUsageOf ply := by
  unfold incUsageOf
  nlinarith [gauss_pos (mnOf ply) 20.0 465.0]

/-- Helper: both `TRatio` variants are nonnegative on valid inputs. -/
theorem TRatioOf_nonneg (T : Bool) (movesToGo ply : Int) (hG : 0 ≤ movesToGo)
    (hP : 0 ≤ ply) : 0 ≤ TRatioOf T movesToGo ply := by
  have hsd := (sdOf_pos movesToGo ply hP).le
  have hm : (0:ℝ) ≤ (movesToGo : ℝ) := by exact_mod_cast hG
  unfold TRatioOf
  cases T <;>
    simp only [eq_self_iff_true, if_true, Bool.false_eq_true, if_false] <;>
    split_ifs <;>
    first
      | exact mul_nonneg (div_nonneg (by norm_num) hm) (gauss_pos movesToGo 19.0 1600.0).le
      | exact mul_nonneg (div_nonneg (by norm_num) hm) (by norm_num)
      | exact mul_nonneg (by norm_num) hsd

/-- Helper: the optimum-time `TRatio` never exceeds the maximum-time
`TRatio` (same Gaussian weight, larger numerator). -/
theorem TRatioOf_mono (movesToGo ply : Int) (hG : 0 ≤ movesToGo) (hP : 0 ≤ ply) :
    TRatioOf true movesToGo ply ≤ TRatioOf false movesToGo ply := by
  have hsd := (sdOf_pos movesToGo ply hP).le
  unfold TRatioOf
  simp only [eq_self_iff_true, if_true, Bool.false_eq_true, if_false]
  split_ifs with h1 h2
  · have hm : (0:ℝ) < (movesToGo : ℝ) := by
      exact_mod_cast lt_of_le_of_ne hG (Ne.symm h1)
    exact mul_le_mul_of_nonneg_right ((div_le_div_iff_of_pos_right hm).mpr (by norm_num))
      (gauss_pos movesToGo 19.0 1600.0).le
  · have hm : (0:ℝ) < (movesToGo : ℝ) := by
      exact_mod_cast lt_of_le_of_ne hG (Ne.symm h1)
    exact mul_le_mul_of_nonneg_right ((div_le_div_iff_of_pos_right hm).mpr (by norm_num))
      (by norm_num)
  · exact mul_le_mul_of_nonneg_right (by norm_num) hsd

/-- Helper: the shared increment factor of `ratio` is nonnegative on valid
inputs. -/
theorem factorOf_nonneg (myTime myInc movesToGo ply : Int) (hT : 1 ≤ myTime)
    (hI : 0 ≤ myInc) (hP : 0 ≤ ply) :
    0 ≤ 1.0 + incUsageOf ply * (myInc : ℝ) / ((myTime : ℝ) * sdOf movesToGo ply) := by
  have h1 : (0:ℝ) ≤ incUsageOf ply * (myInc : ℝ) :=
    mul_nonneg (incUsageOf_pos ply).le (by exact_mod_cast hI)
  have h2 : (0:ℝ) < (myTime : ℝ) * sdOf movesToGo ply := by
    apply mul_pos _ (sdOf_pos movesToGo ply hP)
    exact_mod_cast (by omega : (0:Int) < myTime)
  have := div_nonneg h1 h2.le
  linarith

/-- Helper: the optimum-time ratio never exceeds the maximum-time ratio. -/
theorem ratioOf_mono (myTime myInc movesToGo ply : Int) (hT : 1 ≤ myTime)
    (hI : 0 ≤ myInc) (hG : 0 ≤ movesToGo) (hP : 0 ≤ ply) :
    ratioOf true myTime myInc movesToGo ply ≤
    ratioOf false myTime myInc movesToGo ply := by
  unfold ratioOf
  exact min_le_min le_rfl
    (mul_le_mul_of_nonneg_right (TRatioOf_mono movesToGo ply hG hP)
      (factorOf_nonneg myTime myInc movesToGo ply hT hI hP))

/-- Helper: the clamped ratio is nonnegative on valid inputs. -/
theorem ratioOf_nonneg (T : Bool) (myTime myInc movesToGo ply : Int) (hT : 1 ≤ myTime)
    (hI : 0 ≤ myInc) (hG : 0 ≤ movesToGo) (hP : 0 ≤ ply) :
    0 ≤ ratioOf T myTime myInc movesToGo ply := by
  unfold ratioOf
  exact le_min (by norm_num)
    (mul_nonneg (TRatioOf_nonneg T movesToGo ply hG hP)
      (factorOf_nonneg myTime myInc movesToGo ply hT hI hP))

/-- Helper: the optimum duration never exceeds the maximum duration before
the ponder inflation. -/
theorem remaining_opt_le_max (myTime myInc moveOverhead movesToGo ply : Int)
    (hT : 1 ≤ myTime) (hI : 0 ≤ myInc) (hG : 0 ≤ movesToGo) (hP : 0 ≤ ply) :
    remaining true myTime myInc moveOverhead movesToGo ply ≤
    remaining false myTime myInc moveOverhead movesToGo ply := by
  unfold remaining
  have hh : (0:ℝ) ≤ ((hypMyTimeOf myTime moveOverhead : Int) : ℝ) := by
    have h0 : (0:Int) ≤ hypMyTimeOf myTime moveOverhead := le_max_left 0 _
    exact_mod_cast h0
  have hr0 := ratioOf_nonneg true myTime myInc movesToGo ply hT hI hG hP
  have hmono := ratioOf_mono myTime myInc movesToGo ply hT hI hG hP
  have hmul := mul_le_mul_of_nonneg_left hmono hh
  have hp1 : (0:ℝ) ≤ ((hypMyTimeOf myTime moveOverhead : Int) : ℝ) *
      ratioOf true myTime myInc movesToGo ply := mul_nonneg hh hr0
  unfold cppToInt
  rw [if_pos hp1, if_pos (hp1.trans hmul)]
  exact Int.floor_le_floor hmul

/-! ### Time manager: a concrete saturating input -/

/-- Helper: the Gaussian weight at its peak is exactly 1. -/
theorem gauss_peak : gauss 19 19.0 1600.0 = 1 := by
  unfold gauss
  have h : ((19:Int) : ℝ) - 19.0 = 0 := by norm_num
  rw [h]
  norm_num

/-- Helper: with 100 ms left, 1000 ms increment, movestogo 19 and ply 1 the
clamped ratio saturates at 1 for both duration variants. -/
theorem ratioOf_saturates (T : Bool) : ratioOf T 100 1000 19 1 = 1 := by
  have hmn : mnOf 1 = 1 := by decide
  have hsd : sdOf 19 1 = 8.5 := by
    unfold sdOf
    rw [if_pos (show (19:Int) ≠ 0 by norm_num)]
  have hTR : TRatioOf T 19 1 = (if T then (0.9:ℝ) else 5.6) / 19 := by
    unfold TRatioOf
    rw [if_pos (show (19:Int) ≠ 0 by norm_num),
      if_pos (show mnOf 1 ≤ 40 by decide), gauss_peak]
    norm_num
  have hIU : incUsageOf 1 = 49.0 + 28.5 * gauss 1 20.0 465.0 := by
    unfold incUsageOf
    rw [hmn]
  unfold ratioOf
  rw [hTR, hsd, hIU]
  rw [show (1.0:ℝ) = 1 by norm_num]
  apply min_eq_left
  have hc : (0.9:ℝ) ≤ (if T then (0.9:ℝ) else 5.6) := by cases T <;> norm_num
  have hc0 : (0:ℝ) ≤ (if T then (0.9:ℝ) else 5.6) := by linarith
  have hE : (0:ℝ) ≤ gauss 1 20.0 465.0 := (gauss_pos 1 20.0 465.0).le
  have hcE : (0:ℝ) ≤ (if T then (0.9:ℝ) else 5.6) * gauss 1 20.0 465.0 :=
    mul_nonneg hc0 hE
  push_cast
  nlinarith [hc, hE, hcE]

/-- Helper: both durations evaluate to 90 on the saturating input
(hypMyTime = 100 - 10 = 90, ratio = 1). -/
theorem remaining_saturates (T : Bool) : remaining T 100 1000 10 19 1 = 90 := by
  unfold remaining
  rw [ratioOf_saturates T]
  have h90 : hypMyTimeOf 100 10 = 90 := by decide
  rw [h90, mul_one]
  unfold cppToInt
  rw [if_pos (by positivity : (0:ℝ) ≤ ((90:Int) : ℝ))]
  exact Int.floor_intCast 90

/-- Helper: the full init results on the saturating input, with and without
pondering. -/
theorem init_saturating_ponder :
    TimeManagement.init true 100 1000 10 19 1 = (112, 90) := by
  simp only [TimeManagement.init]
  rw [remaining_saturates true, remaining_saturates false]
  decide

/-- Helper: the non-pondering init results on the saturating input. -/
theorem init_saturating_noponder :
    TimeManagement.init false 100 1000 10 19 1 = (90, 90) := by
  simp only [TimeManagement.init]
  rw [remaining_saturates true, remaining_saturates false]
  decide

/-! ### Claims C1 and C8 -/

/-- Counterexample to claim C1 as stated: with pondering enabled, on the input
(time 100 ms, increment 1000 ms, overhead 10 ms, movestogo 19, ply 1) both
ratios saturate, the pre-inflation durations are both 90, and the ponder
inflation lifts optimumTime to 112 — strictly above maximumTime = 90. -/
theorem maximum_lt_optimum_with_ponder :
    (TimeManagement.init true 100 1000 10 19 1).2 <
    (TimeManagement.init true 100 1000 10 19 1).1 := by
  rw [init_saturating_ponder]
  decide

/-- Claim C1, amended: for every valid input (positive time left, nonnegative
increment, moves-to-go and ply), the maximum duration produced by
`TimeManagement::init` dominates the optimum duration as long as pondering is
disabled; the ponder inflation of optimumTime can push it above maximumTime. -/
theorem init_maximum_ge_optimum_no_ponder
    (myTime myInc moveOverhead movesToGo ply : Int)
    (hT : 1 ≤ myTime) (hI : 0 ≤ myInc) (hG : 0 ≤ movesToGo) (hP : 0 ≤ ply) :
    (TimeManagement.init false myTime myInc moveOverhead movesToGo ply).1 ≤
    (TimeManagement.init false myTime myInc moveOverhead movesToGo ply).2 := by
  simp only [TimeManagement.init, Bool.false_eq_true, if_false]
  exact remaining_opt_le_max myTime myInc moveOverhead movesToGo ply hT hI hG hP

/-- Witness for the amended C1 on a sudden-death control (60 s left, no
increment, 30 ms overhead, ply 1). -/
theorem init_maximum_ge_optimum_no_ponder_witness :
    (1:Int) ≤ 60000 ∧
    (TimeManagement.init false 60000 0 30 0 1).1 ≤
      (TimeManagement.init false 60000 0 30 0 1).2 :=
  ⟨by norm_num,
    init_maximum_ge_optimum_no_ponder 60000 0 30 0 1 (by norm_num) (by norm_num)
      (by norm_num) (by norm_num)⟩

/-- Counterexample to claim C8 as stated: on the saturating input the
non-pondering optimum is 90 and the pondering optimum is 90 + 90/4 = 112 with
C++ integer division, which is not exactly 25% larger (that would be 112.5):
112 * 4 ≠ 90 * 5. -/
theorem ponder_increase_not_exactly_25_percent :
    (TimeManagement.init true 100 1000 10 19 1).1 * 4 ≠
    (TimeManagement.init false 100 1000 10 19 1).1 * 5 := by
  rw [init_saturating_ponder, init_saturating_noponder]
  decide

/-- Claim C8, amended: with ponder enabled the optimum duration is the
non-pondering optimum plus its truncated integer quarter — exactly 25% larger
only when that optimum is divisible by 4 — and the maximum duration is
unaffected by the ponder flag. -/
theorem ponder_adds_truncated_quarter
    (myTime myInc moveOverhead movesToGo ply : Int) :
    (TimeManagement.init true myTime myInc moveOverhead movesToGo ply).2 =
      (TimeManagement.init false myTime myInc moveOverhead movesToGo ply).2 ∧
    (TimeManagement.init true myTime myInc moveOverhead movesToGo ply).1 =
      (TimeManagement.init false myTime myInc moveOverhead movesToGo ply).1 +
        Int.tdiv
          (TimeManagement.init false myTime myInc moveOverhead movesToGo ply).1 4 :=
  ⟨rfl, rfl⟩
